import Mathlib

/-!
Verification of the technical-analytics core of the finance-agent repository
(`agents/analytics_agent.py`).

The Python code computes over pandas Series of IEEE-754 doubles.  We embed the
price data as lists of exact rationals (`List ℚ`) and model the float special
values the pandas pipeline actually produces (`NaN`, `±inf`) with an explicit
extended-value type `EFloat`.  Arithmetic on `EFloat` mirrors IEEE semantics for
the cases reachable from rational inputs (zero is unsigned).  Square roots of
rationals are irrational in general, so every definition that takes a standard
deviation is parametrised by an abstract square-root function `sq : ℚ → ℚ`; no
theorem below depends on its values.  Python's `round(x, 2)` (round half to
even, two decimal places) is modelled exactly on rationals.

The external Yahoo-Finance provider is modelled as an environment
`env : String → List ℚ` mapping a ticker symbol to its list of closing prices
(the empty list models a failed lookup / empty history, as in
`get_stock_data`).  Both the subject series and the benchmark series are
indexed by the same trading days, so positional indices model the date index
used by pandas alignment.
-/

set_option maxRecDepth 40000

attribute [local semireducible] Rat.add Rat.mul Rat.sub Rat.inv

/-- Extended value: a finite rational, `+inf`, `-inf`, or `NaN`.  Models the
IEEE-754 doubles flowing through the pandas pipeline (with unsigned zero). -/
inductive EFloat where
  | val (q : ℚ)
  | inf
  | ninf
  | nan
deriving DecidableEq

namespace EFloat

/-- IEEE negation. -/
def neg : EFloat → EFloat
  | val q => val (-q)
  | inf => ninf
  | ninf => inf
  | nan => nan

/-- IEEE addition (`inf + (-inf) = NaN`; `NaN` absorbs). -/
def add : EFloat → EFloat → EFloat
  | nan, _ => nan
  | _, nan => nan
  | inf, ninf => nan
  | ninf, inf => nan
  | inf, _ => inf
  | _, inf => inf
  | ninf, _ => ninf
  | _, ninf => ninf
  | val a, val b => val (a + b)

/-- IEEE subtraction. -/
def sub (a b : EFloat) : EFloat := a.add b.neg

/-- IEEE multiplication (`inf * 0 = NaN`). -/
def mul : EFloat → EFloat → EFloat
  | nan, _ => nan
  | _, nan => nan
  | val a, val b => val (a * b)
  | inf, inf => inf
  | ninf, ninf => inf
  | inf, ninf => ninf
  | ninf, inf => ninf
  | inf, val b => if 0 < b then inf else if b < 0 then ninf else nan
  | val a, inf => if 0 < a then inf else if a < 0 then ninf else nan
  | ninf, val b => if 0 < b then ninf else if b < 0 then inf else nan
  | val a, ninf => if 0 < a then ninf else if a < 0 then inf else nan

/-- IEEE division with unsigned zero (`x/0 = ±inf` by the sign of `x`,
`0/0 = NaN`, `finite/±inf = 0`, `±inf/±inf = NaN`). -/
def div : EFloat → EFloat → EFloat
  | nan, _ => nan
  | _, nan => nan
  | inf, inf => nan
  | inf, ninf => nan
  | ninf, inf => nan
  | ninf, ninf => nan
  | val _, inf => val 0
  | val _, ninf => val 0
  | inf, val b => if b < 0 then ninf else inf
  | ninf, val b => if b < 0 then inf else ninf
  | val a, val b =>
      if b = 0 then (if a = 0 then nan else if 0 < a then inf else ninf)
      else val (a / b)

/-- IEEE `<` : any comparison against `NaN` is false. -/
def lt : EFloat → EFloat → Bool
  | nan, _ => false
  | _, nan => false
  | val a, val b => decide (a < b)
  | inf, inf => false
  | ninf, ninf => false
  | ninf, _ => true
  | _, inf => true
  | inf, _ => false
  | _, ninf => false

/-- `x > c` against a rational constant, as in the Python comparisons. -/
def gtc (x : EFloat) (c : ℚ) : Bool := lt (val c) x

/-- `x < c` against a rational constant. -/
def ltc (x : EFloat) (c : ℚ) : Bool := lt x (val c)

/-- `x > y`. -/
def gtE (x y : EFloat) : Bool := lt y x

/-- Is this value `NaN`? -/
def isNan : EFloat → Bool
  | nan => true
  | _ => false

end EFloat

/-- Python `round` to an integer: round half to even (banker's rounding). -/
def roundHalfEven (q : ℚ) : ℤ :=
  let f : ℤ := Rat.floor q
  let r : ℚ := q - f
  if r < 1/2 then f
  else if 1/2 < r then f + 1
  else if f % 2 = 0 then f else f + 1

/-- Python `round(x, 2)` on an exact rational. -/
def round2 (q : ℚ) : ℚ := (roundHalfEven (q * 100) : ℚ) / 100

/-- Python `round(x, 2)` on a float: `NaN` and `±inf` round to themselves. -/
def roundE : EFloat → EFloat
  | EFloat.val q => EFloat.val (round2 q)
  | x => x

/-- Sum of a list of extended values (`NaN` absorbs, as in pandas sums over
windows that contain a `NaN`). -/
def esum (xs : List EFloat) : EFloat := xs.foldr EFloat.add (EFloat.val 0)

/-- Mean of a list of extended values (`pandas.Series.mean` over a full
window; the empty list gives `0/0 = NaN`). -/
def emean (xs : List EFloat) : EFloat := (esum xs).div (EFloat.val (xs.length : ℚ))

/-- Sample covariance with denominator `n - 1` (`pandas.Series.cov`). -/
def ecov (xs ys : List EFloat) : EFloat :=
  let mx := emean xs
  let my := emean ys
  (esum (List.zipWith (fun x y => (x.sub mx).mul (y.sub my)) xs ys)).div
    (EFloat.val ((xs.length - 1 : ℕ) : ℚ))

/-- Sample variance with denominator `n - 1` (`pandas.Series.var`). -/
def evar (xs : List EFloat) : EFloat := ecov xs xs

/-- The trailing window of width `w` ending at position `i` (inclusive). -/
def windowAt (xs : List EFloat) (i w : ℕ) : List EFloat :=
  (xs.take (i + 1)).drop (i + 1 - w)

/-- `Series.rolling(window := w)` followed by an aggregation `f` over each full
window; positions whose window is not yet full give `NaN`
(pandas `min_periods` defaults to the window size). -/
def rollingApply (f : List EFloat → EFloat) (w : ℕ) (xs : List EFloat) : List EFloat :=
  (List.range xs.length).map (fun i => if i + 1 < w then EFloat.nan else f (windowAt xs i w))

/-- `Series.rolling(window := w).mean()`. -/
def rollingMean (w : ℕ) (xs : List EFloat) : List EFloat :=
  rollingApply (fun win => (esum win).div (EFloat.val (w : ℚ))) w xs

/-- Sample variance of one full window (denominator `w - 1`). -/
def windowVar (w : ℕ) (win : List EFloat) : EFloat :=
  let m := (esum win).div (EFloat.val (w : ℚ))
  (esum (win.map (fun x => (x.sub m).mul (x.sub m)))).div (EFloat.val ((w - 1 : ℕ) : ℚ))

/-- Square root on extended values, parametrised by an abstract rational
square-root function `sq`. -/
def esqrt (sq : ℚ → ℚ) : EFloat → EFloat
  | EFloat.val q => if q < 0 then EFloat.nan else EFloat.val (sq q)
  | EFloat.inf => EFloat.inf
  | EFloat.ninf => EFloat.nan
  | EFloat.nan => EFloat.nan

/-- `Series.rolling(window := w).std()` (sample standard deviation, `ddof = 1`). -/
def rollingStd (sq : ℚ → ℚ) (w : ℕ) (xs : List EFloat) : List EFloat :=
  rollingApply (fun win => esqrt sq (windowVar w win)) w xs

/-- `prices.diff()`: first entry `NaN`, then consecutive differences. -/
def diffSeries (prices : List ℚ) : List EFloat :=
  if prices.isEmpty then []
  else EFloat.nan :: List.zipWith (fun a b => EFloat.val (b - a)) prices prices.tail

/-- `prices.pct_change()`: first entry `NaN`, then `(p i - p (i-1)) / p (i-1)`
with IEEE division (a zero previous price gives `±inf` or `NaN`). -/
def pctChange (prices : List ℚ) : List EFloat :=
  if prices.isEmpty then []
  else EFloat.nan ::
    List.zipWith (fun a b => (EFloat.val (b - a)).div (EFloat.val a)) prices prices.tail

/-- `Series.dropna()`: removes `NaN` entries (keeps `±inf`). -/
def dropna (xs : List EFloat) : List EFloat := xs.filter (fun x => !x.isNan)

/-- Last element of a series (`iloc[-1]` on a non-empty series; `NaN` as a
don't-care default, never used on an empty series in the summary path). -/
def lastE (xs : List EFloat) : EFloat := xs.getLast?.getD EFloat.nan

/-- Last element of a rational price series. -/
def lastQ (xs : List ℚ) : ℚ := xs.getLast?.getD 0

/-- `calculate_rsi` (source lines 36-57): gains and losses from `diff`, rolling
means over `period`, `rs = gain / loss`, `rsi = 100 - 100 / (1 + rs)`.
Note `delta.where(delta > 0, 0)` maps the leading `NaN` of `diff` to `0`
(a `NaN` comparison is false), exactly as pandas does. -/
def calculate_rsi (prices : List ℚ) (period : ℕ) : List EFloat :=
  let delta := diffSeries prices
  let gain := rollingMean period (delta.map (fun d => if (EFloat.val 0).lt d then d else EFloat.val 0))
  let loss := rollingMean period (delta.map (fun d => EFloat.neg (if d.lt (EFloat.val 0) then d else EFloat.val 0)))
  List.zipWith
    (fun g l => (EFloat.val 100).sub ((EFloat.val 100).div ((EFloat.val 1).add (g.div l))))
    gain loss

/-- Result of `calculate_moving_averages` (source lines 60-75). -/
structure MovingAverages where
  sma_short : List EFloat
  sma_long : List EFloat
deriving DecidableEq

/-- `calculate_moving_averages` (source lines 60-75). -/
def calculate_moving_averages (prices : List ℚ) (short long : ℕ) : MovingAverages :=
  { sma_short := rollingMean short (prices.map EFloat.val)
    sma_long := rollingMean long (prices.map EFloat.val) }

/-- Result of `calculate_bollinger_bands` (source lines 78-99). -/
structure BollingerBands where
  middle : List EFloat
  upper : List EFloat
  lower : List EFloat
deriving DecidableEq

/-- `calculate_bollinger_bands` (source lines 78-99). -/
def calculate_bollinger_bands (sq : ℚ → ℚ) (prices : List ℚ) (period : ℕ) (std_dev : ℚ) :
    BollingerBands :=
  let middle := rollingMean period (prices.map EFloat.val)
  let std := rollingStd sq period (prices.map EFloat.val)
  { middle := middle
    upper := List.zipWith (fun m s => m.add (s.mul (EFloat.val std_dev))) middle std
    lower := List.zipWith (fun m s => m.sub (s.mul (EFloat.val std_dev))) middle std }

/-- `calculate_volatility` (source lines 102-116): `Except.error` models the
uncaught `IndexError` that `returns.rolling(period).std().iloc[-1]` raises when
the returns series is empty (e.g. fewer than two prices); `252` is the
trading-day annualisation constant. -/
def calculate_volatility (sq : ℚ → ℚ) (prices : List ℚ) (period : ℕ) : Except String EFloat :=
  let returns := dropna (pctChange prices)
  match (rollingStd sq period returns).getLast? with
  | none => Except.error "IndexError: single positional indexer is out-of-bounds"
  | some volatility =>
      Except.ok (roundE ((volatility.mul (EFloat.val (sq 252))).mul (EFloat.val 100)))

/-- The return series entering `calculate_beta`:
`pct_change().dropna().tail(period)`, keeping the positional (trading-day)
index that pandas alignment joins on. -/
def indexedReturns (prices : List ℚ) (period : ℕ) : List (ℕ × EFloat) :=
  let r := ((pctChange prices).enum).filter (fun p => !p.2.isNan)
  r.drop (r.length - period)

/-- `pd.concat([stock_returns, market_returns], axis := 1).dropna()`:
inner join of the two indexed return series on the trading-day index. -/
def alignedPairs (stock market : List ℚ) (period : ℕ) : List (EFloat × EFloat) :=
  let s := indexedReturns stock period
  let m := indexedReturns market period
  s.filterMap (fun p => (m.lookup p.1).map (fun w => (p.2, w)))

/-- `calculate_beta` (source lines 119-150): default `1.0` when fewer than 10
aligned observations remain or the benchmark variance is zero, otherwise
`round(cov / var, 2)`. -/
def calculate_beta (stock_prices market_prices : List ℚ) (period : ℕ) : EFloat :=
  let aligned := alignedPairs stock_prices market_prices period
  if aligned.length < 10 then EFloat.val 1
  else
    let covariance := ecov (aligned.map Prod.fst) (aligned.map Prod.snd)
    let variance := evar (aligned.map Prod.snd)
    if variance = EFloat.val 0 then EFloat.val 1
    else roundE (covariance.div variance)

/-- One leg of the `# Price changes` block of `get_technical_summary` (source
lines 197-200): `((current - close.iloc[-j]) / close.iloc[-j]) * 100` when the
series has more than `g` entries, else `0`.  The three legs use
`(j, g) = (2, 1), (5, 5), (20, 20)`. -/
def price_change (close : List ℚ) (j g : ℕ) : EFloat :=
  if g < close.length then
    let current := lastQ close
    let past := close.getD (close.length - j) 0
    ((EFloat.val (current - past)).div (EFloat.val past)).mul (EFloat.val 100)
  else EFloat.val 0

/-- The risk-level classification of `get_technical_summary` (source line 218):
`"High" if volatility > 30 or beta > 1.5 else "Medium" if volatility > 20 or
beta > 1.0 else "Low"`. -/
def risk_level (volatility beta : EFloat) : String :=
  if volatility.gtc 30 || beta.gtc (3/2) then "High"
  else if volatility.gtc 20 || beta.gtc 1 then "Medium"
  else "Low"

/-- The record returned by `get_technical_summary` on success (source lines
202-219).  The `generated_at` wall-clock timestamps of the aggregate reports
are outside the model. -/
structure Summary where
  symbol : String
  current_price : EFloat
  price_change_1d : EFloat
  price_change_1w : EFloat
  price_change_1m : EFloat
  rsi : EFloat
  rsi_signal : String
  sma_20 : EFloat
  sma_50 : EFloat
  trend_signal : String
  bollinger_upper : EFloat
  bollinger_lower : EFloat
  bollinger_signal : String
  volatility : EFloat
  beta : EFloat
  risk_level : String
deriving DecidableEq

/-- The beta used by the summary builder: `1.0` when the benchmark history is
empty, else `calculate_beta` against `env "SPY"` (source lines 186-190). -/
def betaOf (env : String → List ℚ) (close : List ℚ) : EFloat :=
  if (env "SPY").isEmpty then EFloat.val 1 else calculate_beta close (env "SPY") 60

/-- The body of `get_technical_summary` (source lines 168-219) after the
empty-data guard, given the already-computed volatility value.  `env "SPY"`
is the benchmark series; an empty benchmark defaults beta to `1.0`. -/
def mkSummary (sq : ℚ → ℚ) (env : String → List ℚ) (symbol : String) (volatility : EFloat) :
    Summary :=
  let close := env symbol
  let current_price := lastQ close
  let current_rsi := lastE (calculate_rsi close 14)
  let mas := calculate_moving_averages close 20 50
  let sma_20 := lastE mas.sma_short
  let sma_50 := lastE mas.sma_long
  let bb := calculate_bollinger_bands sq close 20 2
  let bb_upper := lastE bb.upper
  let bb_lower := lastE bb.lower
  let beta := betaOf env close
  let rsi_signal :=
    if current_rsi.gtc 70 then "Overbought" else if current_rsi.ltc 30 then "Oversold" else "Neutral"
  let trend_signal :=
    if sma_20.gtE sma_50 then "Bullish" else if sma_20.lt sma_50 then "Bearish" else "Neutral"
  let bb_signal :=
    if (EFloat.val current_price).gtE (bb_upper.mul (EFloat.val (49/50))) then "Near Upper"
    else if (EFloat.val current_price).lt (bb_lower.mul (EFloat.val (51/50))) then "Near Lower"
    else "Within Bands"
  { symbol := symbol
    current_price := roundE (EFloat.val current_price)
    price_change_1d := roundE (price_change close 2 1)
    price_change_1w := roundE (price_change close 5 5)
    price_change_1m := roundE (price_change close 20 20)
    rsi := roundE current_rsi
    rsi_signal := rsi_signal
    sma_20 := roundE sma_20
    sma_50 := roundE sma_50
    trend_signal := trend_signal
    bollinger_upper := roundE bb_upper
    bollinger_lower := roundE bb_lower
    bollinger_signal := bb_signal
    volatility := volatility
    beta := beta
    risk_level := risk_level volatility beta }

/-- Outcome of building one symbol's summary: a structured `{"error": ...}`
record, an uncaught exception escaping the function (`crash`), or a summary. -/
inductive SummaryResult where
  | err (msg : String)
  | crash
  | ok (s : Summary)
deriving DecidableEq

/-- `get_technical_summary` (source lines 153-219): a structured error record
when the fetched history is empty, otherwise the summary; `crash` when
`calculate_volatility` raises (its `IndexError` is not caught anywhere). -/
def get_technical_summary (sq : ℚ → ℚ) (env : String → List ℚ) (symbol : String) :
    SummaryResult :=
  let data := env symbol
  if data.isEmpty then SummaryResult.err ("No data found for " ++ symbol)
  else
    match calculate_volatility sq data 20 with
    | Except.error _ => SummaryResult.crash
    | Except.ok volatility => SummaryResult.ok (mkSummary sq env symbol volatility)

/-- The fixed region tables of `analyze_risk_exposure` (source lines 234-236). -/
def asia_tech_stocks : List String := ["TSM", "2330.TW", "SSNLF", "005930.KS", "BABA", "BIDU", "9988.HK"]

/-- US region table (source line 235). -/
def us_tech_stocks : List String := ["AAPL", "MSFT", "GOOGL", "META", "NVDA", "AMD", "INTC"]

/-- Europe region table (source line 236). -/
def europe_stocks : List String := ["ASML", "SAP", "SHOP"]

/-- Contiguous-sublist check on character lists (Python's `needle in hay`). -/
def isSubList : List Char → List Char → Bool
  | needle, [] => needle.isEmpty
  | needle, c :: rest => needle.isPrefixOf (c :: rest) || isSubList needle rest

/-- Python's `str.lower()`, character by character (exact for the ASCII region
and ticker names used here). -/
def lowerChars (s : String) : List Char := s.toList.map Char.toLower

/-- Python's `str.upper()`, character by character. -/
def upperChars (s : String) : List Char := s.toList.map Char.toUpper

/-- Python's substring operator `needle in hay` on a lowered string. -/
def containsSub (needle : String) (hay : List Char) : Bool := isSubList needle.toList hay

/-- Membership of `s` in a region table, case-insensitively
(`s.upper() in [x.upper() for x in table]`). -/
def inTable (table : List String) (s : String) : Bool :=
  (table.map upperChars).contains (upperChars s)

/-- The symbol-list rewriting of `analyze_risk_exposure` (source lines
239-249): region filtering with per-region fallback defaults, then the final
`['TSM']` default for an empty list.  `none` models `region=None` and Python's
`if region:` also skips the filter for an empty string. -/
def resolveSymbols (symbols : List String) (region : Option String) : List String :=
  let filtered :=
    match region with
    | none => symbols
    | some r =>
        if r.isEmpty then symbols
        else
          let region_lower := lowerChars r
          if containsSub "asia" region_lower then
            let f := symbols.filter (inTable asia_tech_stocks)
            if f.isEmpty then ["TSM"] else f
          else if containsSub "us" region_lower || containsSub "america" region_lower then
            let f := symbols.filter (inTable us_tech_stocks)
            if f.isEmpty then ["AAPL"] else f
          else if containsSub "europe" region_lower then
            let f := symbols.filter (inTable europe_stocks)
            if f.isEmpty then ["ASML"] else f
          else symbols
  if filtered.isEmpty then ["TSM"] else filtered

/-- The per-symbol loop shared by both aggregators (source lines 255-260 and
310-314): build each summary in order, skip `{"error": ...}` records, and let
an uncaught exception abort the whole batch (`none`). -/
def collectSummaries (sq : ℚ → ℚ) (env : String → List ℚ) : List String → Option (List Summary)
  | [] => some []
  | s :: rest =>
      match get_technical_summary sq env s with
      | SummaryResult.crash => none
      | SummaryResult.err _ => collectSummaries sq env rest
      | SummaryResult.ok a => (collectSummaries sq env rest).map (fun l => a :: l)

/-- The report of `analyze_risk_exposure` (source lines 284-294), minus the
wall-clock `generated_at` stamp. -/
structure RiskReport where
  region : String
  stocks_analyzed : ℕ
  stocks : List Summary
  average_volatility : EFloat
  average_beta : EFloat
  overall_risk_level : String
  risk_summary : String
  high_risk_positions : List String
deriving DecidableEq

/-- Outcome of a batch entry point: an `{"error": ...}` record, an uncaught
exception, or a report. -/
inductive RiskResult where
  | err (msg : String)
  | crash
  | ok (r : RiskReport)
deriving DecidableEq

/-- `analyze_risk_exposure` (source lines 222-294). -/
def analyze_risk_exposure (sq : ℚ → ℚ) (env : String → List ℚ) (symbols : List String)
    (region : Option String) : RiskResult :=
  let syms := resolveSymbols symbols region
  match collectSummaries sq env syms with
  | none => RiskResult.crash
  | some portfolio_analysis =>
      if portfolio_analysis.isEmpty then
        RiskResult.err "Could not analyze any stocks in the portfolio"
      else
        let total_volatility := (portfolio_analysis.map Summary.volatility).foldl EFloat.add (EFloat.val 0)
        let total_beta := (portfolio_analysis.map Summary.beta).foldl EFloat.add (EFloat.val 0)
        let n := portfolio_analysis.length
        let avg_volatility := total_volatility.div (EFloat.val (n : ℚ))
        let avg_beta := total_beta.div (EFloat.val (n : ℚ))
        let high_risk_count := (portfolio_analysis.filter (fun a => a.risk_level == "High")).length
        let overall :=
          if n < 2 * high_risk_count then
            ("High", "Portfolio has significant exposure to volatile assets. Consider diversification.")
          else if avg_volatility.gtc 25 then
            ("Medium-High", "Above-average volatility. Monitor positions closely.")
          else if avg_beta.gtc (6/5) then
            ("Medium", "Portfolio is more sensitive to market movements than average.")
          else
            ("Low-Medium", "Portfolio has moderate risk exposure.")
        RiskResult.ok
          { region :=
              match region with
              | none => "Global"
              | some r => if r.isEmpty then "Global" else r
            stocks_analyzed := n
            stocks := portfolio_analysis
            average_volatility := roundE avg_volatility
            average_beta := roundE avg_beta
            overall_risk_level := overall.1
            risk_summary := overall.2
            high_risk_positions :=
              (portfolio_analysis.filter (fun a => a.risk_level == "High")).map Summary.symbol }

/-- The report of `get_portfolio_analytics` (source lines 325-335), minus the
wall-clock `generated_at` stamp. -/
structure PortfolioReport where
  total_positions : ℕ
  bullish_trend : ℕ
  bearish_trend : ℕ
  neutral_trend : ℕ
  overbought_count : ℕ
  oversold_count : ℕ
  individual_analyses : List Summary
  portfolio_sentiment : String
deriving DecidableEq

/-- Outcome of `get_portfolio_analytics`. -/
inductive PortfolioResult where
  | err (msg : String)
  | crash
  | ok (r : PortfolioReport)
deriving DecidableEq

/-- `get_portfolio_analytics` (source lines 297-335). -/
def get_portfolio_analytics (sq : ℚ → ℚ) (env : String → List ℚ) (symbols : List String) :
    PortfolioResult :=
  if symbols.isEmpty then PortfolioResult.err "No symbols provided"
  else
    match collectSummaries sq env symbols with
    | none => PortfolioResult.crash
    | some analyses =>
        if analyses.isEmpty then PortfolioResult.err "Could not analyze any stocks"
        else
          let bullish := (analyses.filter (fun a => a.trend_signal == "Bullish")).length
          let bearish := (analyses.filter (fun a => a.trend_signal == "Bearish")).length
          let overbought := (analyses.filter (fun a => a.rsi_signal == "Overbought")).length
          let oversold := (analyses.filter (fun a => a.rsi_signal == "Oversold")).length
          PortfolioResult.ok
            { total_positions := analyses.length
              bullish_trend := bullish
              bearish_trend := bearish
              neutral_trend := analyses.length - bullish - bearish
              overbought_count := overbought
              oversold_count := oversold
              individual_analyses := analyses
              portfolio_sentiment :=
                if bearish < bullish then "Bullish"
                else if bullish < bearish then "Bearish" else "Mixed" }

/-- Modelled from the spec (§4.1, §4.3 item 5): annualized volatility computed
exactly, with no rounding inside the indicator — identical to
`calculate_volatility` except for the missing internal `round(..., 2)`. -/
def volatility_exact (sq : ℚ → ℚ) (prices : List ℚ) (period : ℕ) : Except String EFloat :=
  let returns := dropna (pctChange prices)
  match (rollingStd sq period returns).getLast? with
  | none => Except.error "IndexError: single positional indexer is out-of-bounds"
  | some volatility =>
      Except.ok ((volatility.mul (EFloat.val (sq 252))).mul (EFloat.val 100))

/-- Modelled from the spec (§4.1 Beta, §4.3 item 5): beta computed exactly,
with no rounding inside the indicator — identical to `calculate_beta` except
for the missing internal `round(..., 2)`. -/
def beta_exact (stock_prices market_prices : List ℚ) (period : ℕ) : EFloat :=
  let aligned := alignedPairs stock_prices market_prices period
  if aligned.length < 10 then EFloat.val 1
  else
    let covariance := ecov (aligned.map Prod.fst) (aligned.map Prod.snd)
    let variance := evar (aligned.map Prod.snd)
    if variance = EFloat.val 0 then EFloat.val 1
    else covariance.div variance

/-- Modelled from the spec: the exact (unrounded) counterpart of `betaOf`. -/
def betaOf_spec (env : String → List ℚ) (close : List ℚ) : EFloat :=
  if (env "SPY").isEmpty then EFloat.val 1 else beta_exact close (env "SPY") 60

/-- Modelled from the spec (§4.3 item 5): the per-symbol summary with every
indicator computed exactly and every numeric output rounded exactly once at
the presentation boundary; in particular the risk level is derived from the
exact volatility and beta, not from their rounded values. -/
def mkSummary_spec (sq : ℚ → ℚ) (env : String → List ℚ) (symbol : String)
    (volatility : EFloat) : Summary :=
  let close := env symbol
  let current_price := lastQ close
  let current_rsi := lastE (calculate_rsi close 14)
  let mas := calculate_moving_averages close 20 50
  let sma_20 := lastE mas.sma_short
  let sma_50 := lastE mas.sma_long
  let bb := calculate_bollinger_bands sq close 20 2
  let bb_upper := lastE bb.upper
  let bb_lower := lastE bb.lower
  let beta := betaOf_spec env close
  let rsi_signal :=
    if current_rsi.gtc 70 then "Overbought" else if current_rsi.ltc 30 then "Oversold" else "Neutral"
  let trend_signal :=
    if sma_20.gtE sma_50 then "Bullish" else if sma_20.lt sma_50 then "Bearish" else "Neutral"
  let bb_signal :=
    if (EFloat.val current_price).gtE (bb_upper.mul (EFloat.val (49/50))) then "Near Upper"
    else if (EFloat.val current_price).lt (bb_lower.mul (EFloat.val (51/50))) then "Near Lower"
    else "Within Bands"
  { symbol := symbol
    current_price := roundE (EFloat.val current_price)
    price_change_1d := roundE (price_change close 2 1)
    price_change_1w := roundE (price_change close 5 5)
    price_change_1m := roundE (price_change close 20 20)
    rsi := roundE current_rsi
    rsi_signal := rsi_signal
    sma_20 := roundE sma_20
    sma_50 := roundE sma_50
    trend_signal := trend_signal
    bollinger_upper := roundE bb_upper
    bollinger_lower := roundE bb_lower
    bollinger_signal := bb_signal
    volatility := roundE volatility
    beta := roundE beta
    risk_level := risk_level volatility beta }

/-- Modelled from the spec: `get_technical_summary` with rounding only at the
presentation boundary (same guards and failure structure as the code). -/
def get_technical_summary_spec (sq : ℚ → ℚ) (env : String → List ℚ) (symbol : String) :
    SummaryResult :=
  let data := env symbol
  if data.isEmpty then SummaryResult.err ("No data found for " ++ symbol)
  else
    match volatility_exact sq data 20 with
    | Except.error _ => SummaryResult.crash
    | Except.ok volatility => SummaryResult.ok (mkSummary_spec sq env symbol volatility)

/-- A summary with its risk level blanked, to compare all other fields. -/
def eraseRisk (s : Summary) : Summary := { s with risk_level := "" }

/-- `eraseRisk` lifted to summary results. -/
def eraseRiskR : SummaryResult → SummaryResult
  | SummaryResult.ok s => SummaryResult.ok (eraseRisk s)
  | r => r

/-- The risk level of a summary result, when one was produced. -/
def riskOfR : SummaryResult → Option String
  | SummaryResult.ok s => some s.risk_level
  | _ => none

/-- The summary `get_technical_summary` produces for a symbol whose history is
non-empty and whose volatility computation succeeds. -/
def summaryOf (sq : ℚ → ℚ) (env : String → List ℚ) (symbol : String) : Summary :=
  mkSummary sq env symbol ((calculate_volatility sq (env symbol) 20).toOption.getD EFloat.nan)

/-- Severity order of risk levels: `"Low" < "Medium" < "High"`. -/
def severity (s : String) : ℕ :=
  if s = "High" then 2 else if s = "Medium" then 1 else 0

/-- The consecutive price differences (`prices.diff()` without its leading
`NaN`). -/
def rawDeltas (prices : List ℚ) : List ℚ := List.zipWith (fun a b => b - a) prices prices.tail

/-- The trailing window of `period` price differences that feeds the last RSI
value. -/
def windowDeltas (prices : List ℚ) (period : ℕ) : List ℚ :=
  (rawDeltas prices).drop ((rawDeltas prices).length - period)

/-- The running-total average of the aggregator loop (`total += x` over the
collected summaries, divided by their count). -/
def averageOf (xs : List EFloat) : EFloat :=
  (xs.foldl EFloat.add (EFloat.val 0)).div (EFloat.val (xs.length : ℚ))

/-- Percentage change of the last close relative to the close at index `i`
(`i` bars after the start), as the spec's "k bars back" language reads. -/
def pctFrom (close : List ℚ) (i : ℕ) : EFloat :=
  ((EFloat.val (lastQ close - close.getD i 0)).div (EFloat.val (close.getD i 0))).mul
    (EFloat.val 100)

/-- Price series with initial price `p0` and the given percentage returns. -/
def cumFromReturns (p0 : ℚ) : List ℚ → List ℚ
  | [] => [p0]
  | r :: rs => p0 :: cumFromReturns (p0 * (1 + r)) rs

/-- Degenerate square-root stand-in for concrete witnesses whose volatility
window is never full (its value is irrelevant there). -/
def sq0 : ℚ → ℚ := fun _ => 0

/-- Benchmark returns for the rounding counterexample: alternating ±10%. -/
def mrets : List ℚ := [1/10, -1/10, 1/10, -1/10, 1/10, -1/10, 1/10, -1/10, 1/10, -1/10, 1/10]

/-- Benchmark price series for the rounding counterexample (12 closes). -/
def mktPrices : List ℚ := cumFromReturns 1 mrets

/-- Subject price series whose returns are exactly `1.504` times the
benchmark returns, so its exact beta is `1.504` (rounding to `1.5`). -/
def stkPrices : List ℚ := cumFromReturns 1 (mrets.map (fun r => r * (188/125)))

/-- Environment for the rounding counterexample: a 12-bar subject series and
a 12-bar benchmark. -/
def env9 : String → List ℚ := fun s =>
  if s = "XYZ" then stkPrices else if s = "SPY" then mktPrices else []

/-- Environment for the aggregation witness: three requested symbols of which
one ("BAD") has no data. -/
def env3 : String → List ℚ := fun s => if s = "BAD" then [] else [1, 2]

/-! ### General lemmas about the series combinators -/

lemma getLast?_range_map {α : Type} (g : ℕ → α) (n : ℕ) (h : n ≠ 0) :
    ((List.range n).map g).getLast? = some (g (n - 1)) := by
  cases n with
  | zero => exact absurd rfl h
  | succ m =>
    rw [List.range_succ, List.map_append]
    simp

lemma rollingApply_last (f : List EFloat → EFloat) (w : ℕ) (xs : List EFloat)
    (h0 : xs ≠ []) (hw : w ≤ xs.length) :
    (rollingApply f w xs).getLast? = some (f (xs.drop (xs.length - w))) := by
  unfold rollingApply
  rw [getLast?_range_map _ _ (by simpa using h0)]
  have hn : xs.length - 1 + 1 = xs.length :=
    Nat.succ_pred_eq_of_pos (List.length_pos.mpr h0)
  rw [if_neg (by omega), windowAt, hn, List.take_length]

lemma length_rollingApply (f : List EFloat → EFloat) (w : ℕ) (xs : List EFloat) :
    (rollingApply f w xs).length = xs.length := by
  simp [rollingApply]

lemma getLast?_zipWith {α β γ : Type} (f : α → β → γ) (as : List α) (bs : List β) (a : α) (b : β)
    (h : as.length = bs.length) (ha : as.getLast? = some a) (hb : bs.getLast? = some b) :
    (List.zipWith f as bs).getLast? = some (f a b) := by
  rw [List.getLast?_eq_getElem?] at ha hb ⊢
  rw [List.length_zipWith, h, min_self, List.getElem?_zipWith', ← h, ha, h, hb]
  rfl

lemma esum_map_val (qs : List ℚ) : esum (qs.map EFloat.val) = EFloat.val qs.sum := by
  induction qs with
  | nil => rfl
  | cons q rest ih =>
    simp only [List.map_cons, esum, List.foldr_cons, List.sum_cons]
    rw [show List.foldr EFloat.add (EFloat.val 0) (rest.map EFloat.val) =
      esum (rest.map EFloat.val) from rfl, ih]
    rfl

lemma esum_zeros (xs : List EFloat) (h : ∀ x ∈ xs, x = EFloat.val 0) : esum xs = EFloat.val 0 := by
  induction xs with
  | nil => rfl
  | cons x rest ih =>
    rw [esum, List.foldr_cons, show List.foldr EFloat.add (EFloat.val 0) rest = esum rest from rfl,
      ih (fun y hy => h y (List.mem_cons_of_mem x hy)), h x (List.mem_cons_self x rest)]
    rfl

/-! ### C1: the zero-average-loss RSI value -/

/-- Claim C1, counterexample.  The claim says every price series of `period + 1`
closes whose trailing window has no negative price difference gets RSI exactly
`100`, never NaN.  A constant series (15 closes of `5`, period 14) has no
negative difference — average loss is zero — yet the code's trailing RSI is
`NaN`: both rolling means are `0`, so `rs = 0/0 = NaN` and
`rsi = 100 - 100/(1 + NaN) = NaN`. -/
theorem C1_flat_window_rsi_nan :
    (List.replicate 15 (5:ℚ)).length = 14 + 1 ∧
    (∀ d ∈ windowDeltas (List.replicate 15 (5:ℚ)) 14, 0 ≤ d) ∧
    (calculate_rsi (List.replicate 15 (5:ℚ)) 14).getLast? = some EFloat.nan := by
  refine ⟨by decide, by decide, by decide⟩

/-- Claim C1, amended.  For every price series with at least `period + 1` closes
whose trailing window of differences contains no negative difference *and at
least one positive difference*, the trailing RSI value is exactly `100` (the
average loss is zero, `rs = gain/0 = +inf` and `100 - 100/(1 + inf) = 100`).
When the window additionally has no positive difference the result is `NaN`
(see the counterexample). -/
theorem C1_zero_loss_rsi_100 (ps : List ℚ) (period : ℕ) (hp : 0 < period)
    (hlen : period + 1 ≤ ps.length)
    (hnoneg : ∀ d ∈ windowDeltas ps period, 0 ≤ d)
    (hpos : ∃ d ∈ windowDeltas ps period, 0 < d) :
    (calculate_rsi ps period).getLast? = some (EFloat.val 100) := by
  have hne : ps ≠ [] := by
    intro h
    rw [h] at hlen
    simp at hlen
  have hraw_len : (rawDeltas ps).length = ps.length - 1 := by
    simp [rawDeltas, List.length_zipWith, List.length_tail]
  have hdiff : diffSeries ps = EFloat.nan :: (rawDeltas ps).map EFloat.val := by
    rw [diffSeries, if_neg (by simpa using hne), rawDeltas, List.map_zipWith]
  set gF : EFloat → EFloat := fun d => if (EFloat.val 0).lt d then d else EFloat.val 0 with hgF
  set lF : EFloat → EFloat :=
    fun d => EFloat.neg (if d.lt (EFloat.val 0) then d else EFloat.val 0) with hlF
  have key : calculate_rsi ps period =
      List.zipWith
        (fun g l => (EFloat.val 100).sub ((EFloat.val 100).div ((EFloat.val 1).add (g.div l))))
        (rollingMean period ((diffSeries ps).map gF))
        (rollingMean period ((diffSeries ps).map lF)) := rfl
  have hglen : ((diffSeries ps).map gF).length = ps.length := by
    rw [hdiff]; simp [hraw_len]; omega
  have hllen : ((diffSeries ps).map lF).length = ps.length := by
    rw [hdiff]; simp [hraw_len]; omega
  have hdropg : ((diffSeries ps).map gF).drop (((diffSeries ps).map gF).length - period) =
      (windowDeltas ps period).map (fun d => gF (EFloat.val d)) := by
    rw [hglen, hdiff, List.map_cons]
    have : ps.length - period = ((rawDeltas ps).length - period) + 1 := by omega
    rw [this, List.drop_succ_cons, List.map_map, ← List.map_drop, windowDeltas]
    rfl
  have hdropl : ((diffSeries ps).map lF).drop (((diffSeries ps).map lF).length - period) =
      (windowDeltas ps period).map (fun d => lF (EFloat.val d)) := by
    rw [hllen, hdiff, List.map_cons]
    have : ps.length - period = ((rawDeltas ps).length - period) + 1 := by omega
    rw [this, List.drop_succ_cons, List.map_map, ← List.map_drop, windowDeltas]
    rfl
  have hgwin : (windowDeltas ps period).map (fun d => gF (EFloat.val d)) =
      (windowDeltas ps period).map EFloat.val := by
    apply List.map_congr_left
    intro d hd
    have h0 : (0:ℚ) ≤ d := hnoneg d hd
    by_cases hc : (0:ℚ) < d
    · simp [hgF, EFloat.lt, hc]
    · have : d = 0 := le_antisymm (not_lt.mp hc) h0
      simp [hgF, EFloat.lt, this]
  have hlwin : ∀ x ∈ (windowDeltas ps period).map (fun d => lF (EFloat.val d)),
      x = EFloat.val 0 := by
    intro x hx
    rcases List.mem_map.mp hx with ⟨d, hd, rfl⟩
    have h0 : (0:ℚ) ≤ d := hnoneg d hd
    have : ¬ d < 0 := not_lt.mpr h0
    simp [hlF, EFloat.lt, this, EFloat.neg]
  have hgne : ((diffSeries ps).map gF) ≠ [] := by
    intro h
    rw [h] at hglen
    simp at hglen
    omega
  have hlne : ((diffSeries ps).map lF) ≠ [] := by
    intro h
    rw [h] at hllen
    simp at hllen
    omega
  have hperiod_le : period ≤ ((diffSeries ps).map gF).length := by omega
  have hperiod_le2 : period ≤ ((diffSeries ps).map lF).length := by omega
  have hgain : (rollingMean period ((diffSeries ps).map gF)).getLast? =
      some (EFloat.val ((windowDeltas ps period).sum / (period : ℚ))) := by
    rw [rollingMean, rollingApply_last _ _ _ hgne hperiod_le, hdropg, hgwin, esum_map_val]
    have hpq : ((period : ℚ)) ≠ 0 := Nat.cast_ne_zero.mpr hp.ne.symm
    simp [EFloat.div, hpq]
  have hloss : (rollingMean period ((diffSeries ps).map lF)).getLast? =
      some (EFloat.val 0) := by
    rw [rollingMean, rollingApply_last _ _ _ hlne hperiod_le2, hdropl, esum_zeros _ hlwin]
    have hpq : ((period : ℚ)) ≠ 0 := Nat.cast_ne_zero.mpr hp.ne.symm
    simp [EFloat.div, hpq]
  obtain ⟨d, hd, hdpos⟩ := hpos
  have hS : 0 < (windowDeltas ps period).sum :=
    lt_of_lt_of_le hdpos (List.single_le_sum hnoneg d hd)
  have hSq : 0 < (windowDeltas ps period).sum / (period : ℚ) := by positivity
  rw [key, getLast?_zipWith _ _ _ _ _
    (by rw [rollingMean, rollingMean, length_rollingApply, length_rollingApply, hglen, hllen])
    hgain hloss]
  have hdiv : (EFloat.val ((windowDeltas ps period).sum / (period:ℚ))).div (EFloat.val 0) =
      EFloat.inf := by
    simp [EFloat.div, hSq.ne.symm, hSq]
  rw [hdiv]
  simp [EFloat.add, EFloat.div, EFloat.sub, EFloat.neg]

/-- Claim C1, witness.  A strictly increasing 15-close series: window of 14
differences all positive, trailing RSI exactly `100`. -/
theorem C1_zero_loss_rsi_100_witness :
    (calculate_rsi [1,2,3,4,5,6,7,8,9,10,11,12,13,14,15] 14).getLast? =
      some (EFloat.val 100) :=
  C1_zero_loss_rsi_100 [1,2,3,4,5,6,7,8,9,10,11,12,13,14,15] 14
    (by decide) (by decide) (by decide) (by decide)

/-! ### C2 -/

/-- Claim C2.  `calculate_volatility` does not tolerate short histories: on an
empty price series, and on a single-price series, the returns series is empty
after `dropna`, and `.iloc[-1]` raises an uncaught `IndexError` (modelled as
`Except.error`), for every square-root function. -/
theorem C2_volatility_raises_on_short_history :
    (∀ sq : ℚ → ℚ, calculate_volatility sq [] 20 =
      Except.error "IndexError: single positional indexer is out-of-bounds") ∧
    (∀ sq : ℚ → ℚ, calculate_volatility sq [100] 20 =
      Except.error "IndexError: single positional indexer is out-of-bounds") :=
  ⟨fun _ => rfl, fun _ => rfl⟩

/-! ### C4 and C8: the risk-level classification -/

lemma risk_level_val (v b : ℚ) :
    risk_level (EFloat.val v) (EFloat.val b) =
      if 30 < v ∨ 3/2 < b then "High" else if 20 < v ∨ 1 < b then "Medium" else "Low" := by
  simp only [risk_level, EFloat.gtc, EFloat.lt, Bool.or_eq_true, decide_eq_true_eq]

/-- Claim C4.  The risk level is `"High"` exactly when `volatility > 30` or
`beta > 1.5`, `"Medium"` exactly when neither holds but `volatility > 20` or
`beta > 1.0`, and `"Low"` otherwise — all inequalities strict, so equality at
a threshold falls to the lower-severity branch (witnessed by the boundary
pairs `(30, 1.5)` and `(20, 1)`). -/
theorem C4_risk_level_thresholds :
    (∀ v b : ℚ,
      (risk_level (EFloat.val v) (EFloat.val b) = "High" ↔ 30 < v ∨ 3/2 < b) ∧
      (risk_level (EFloat.val v) (EFloat.val b) = "Medium" ↔
        ¬(30 < v ∨ 3/2 < b) ∧ (20 < v ∨ 1 < b)) ∧
      (risk_level (EFloat.val v) (EFloat.val b) = "Low" ↔
        ¬(30 < v ∨ 3/2 < b) ∧ ¬(20 < v ∨ 1 < b))) ∧
    risk_level (EFloat.val 30) (EFloat.val (3/2)) = "Medium" ∧
    risk_level (EFloat.val 20) (EFloat.val 1) = "Low" := by
  refine ⟨fun v b => ?_, by decide, by decide⟩
  rw [risk_level_val]
  split_ifs with h1 h2 <;> simp_all

/-- Claim C8.  Monotonicity of the classification: raising volatility and beta
never lowers the severity (`"Low" < "Medium" < "High"`). -/
theorem C8_risk_level_monotone : ∀ v1 b1 v2 b2 : ℚ, v1 ≤ v2 → b1 ≤ b2 →
    severity (risk_level (EFloat.val v1) (EFloat.val b1)) ≤
      severity (risk_level (EFloat.val v2) (EFloat.val b2)) := by
  intro v1 b1 v2 b2 hv hb
  rw [risk_level_val, risk_level_val]
  by_cases hA1 : 30 < v1 ∨ 3/2 < b1
  · have hA2 : 30 < v2 ∨ 3/2 < b2 :=
      hA1.imp (fun h => lt_of_lt_of_le h hv) (fun h => lt_of_lt_of_le h hb)
    rw [if_pos hA1, if_pos hA2]
  · rw [if_neg hA1]
    by_cases hB1 : 20 < v1 ∨ 1 < b1
    · have hB2 : 20 < v2 ∨ 1 < b2 :=
        hB1.imp (fun h => lt_of_lt_of_le h hv) (fun h => lt_of_lt_of_le h hb)
      rw [if_pos hB1]
      by_cases hA2 : 30 < v2 ∨ 3/2 < b2
      · rw [if_pos hA2]
        decide
      · rw [if_neg hA2, if_pos hB2]
    · rw [if_neg hB1]
      split_ifs <;> decide

/-- Claim C8, witness.  `(10, 1) ≤ (40, 2)` pointwise: severity `"Low" ≤ "High"`. -/
theorem C8_risk_level_monotone_witness :
    severity (risk_level (EFloat.val 10) (EFloat.val 1)) ≤
      severity (risk_level (EFloat.val 40) (EFloat.val 2)) :=
  C8_risk_level_monotone 10 1 40 2 (by norm_num) (by norm_num)

/-! ### C5: beta defaults -/

/-- Claim C5.  `calculate_beta` returns exactly `1.0` whenever fewer than 10
aligned paired observations remain after alignment, and whenever the aligned
benchmark variance is exactly zero. -/
theorem C5_beta_defaults (stock market : List ℚ) (period : ℕ) :
    ((alignedPairs stock market period).length < 10 →
      calculate_beta stock market period = EFloat.val 1) ∧
    (evar ((alignedPairs stock market period).map Prod.snd) = EFloat.val 0 →
      calculate_beta stock market period = EFloat.val 1) := by
  constructor <;> intro h
  · simp only [calculate_beta]
    rw [if_pos h]
  · simp only [calculate_beta, h, if_pos]
    split_ifs <;> rfl

/-- Claim C5, witness.  Two-price series leave a single aligned return
(`< 10`), and an 11-price doubling benchmark has 10 aligned returns all equal
to `1.0` (variance zero); both give beta exactly `1.0`. -/
theorem C5_beta_defaults_witness :
    calculate_beta [1,2] [1,2] 60 = EFloat.val 1 ∧
    calculate_beta [1,2,3,4,5,6,7,8,9,10,11,12]
      [1,2,4,8,16,32,64,128,256,512,1024] 60 = EFloat.val 1 :=
  ⟨(C5_beta_defaults [1,2] [1,2] 60).1 (by decide),
   (C5_beta_defaults [1,2,3,4,5,6,7,8,9,10,11,12]
      [1,2,4,8,16,32,64,128,256,512,1024] 60).2 (by decide)⟩

/-! ### C7: the price-change lookbacks -/

/-- Claim C7, counterexample.  The claim says the 1-week change uses the close
exactly 5 bars back from the last.  On `[1,2,3,4,5,6,7]` the close 5 bars back
from the last is `2` (percentage change `250`), but the code computes
`iloc[-5]`, the close 4 bars back (`3`), giving `400/3`. -/
theorem C7_week_lookback_counterexample :
    price_change [1,2,3,4,5,6,7] 5 5 = EFloat.val (400/3) ∧
    pctFrom [1,2,3,4,5,6,7] (7 - 1 - 5) = EFloat.val 250 ∧
    price_change [1,2,3,4,5,6,7] 5 5 ≠ pctFrom [1,2,3,4,5,6,7] (7 - 1 - 5) := by
  refine ⟨by decide, by decide, by decide⟩

/-- Claim C7, amended.  The 1-day / 1-week / 1-month changes are percentage
changes from the closes `1`, `4` and `19` bars back from the last close
(`iloc[-2]`, `iloc[-5]`, `iloc[-20]`), and each defaults to `0` unless the
history has strictly more than `1`, `5`, `20` bars respectively. -/
theorem C7_price_change_lookbacks (close : List ℚ) :
    (1 < close.length → price_change close 2 1 = pctFrom close (close.length - 1 - 1)) ∧
    (¬ 1 < close.length → price_change close 2 1 = EFloat.val 0) ∧
    (5 < close.length → price_change close 5 5 = pctFrom close (close.length - 1 - 4)) ∧
    (¬ 5 < close.length → price_change close 5 5 = EFloat.val 0) ∧
    (20 < close.length → price_change close 20 20 = pctFrom close (close.length - 1 - 19)) ∧
    (¬ 20 < close.length → price_change close 20 20 = EFloat.val 0) := by
  refine ⟨?_, ?_, ?_, ?_, ?_, ?_⟩ <;> intro h
  · simp [price_change, pctFrom, if_pos h, Nat.sub_sub]
  · rw [price_change, if_neg h]
  · simp [price_change, pctFrom, if_pos h, Nat.sub_sub]
  · rw [price_change, if_neg h]
  · simp [price_change, pctFrom, if_pos h, Nat.sub_sub]
  · rw [price_change, if_neg h]

/-- Claim C7, witness.  The amended lookbacks at the concrete series
`[1,2,3,4,5,6,7]`. -/
theorem C7_price_change_lookbacks_witness :
    price_change [1,2,3,4,5,6,7] 5 5 = pctFrom [1,2,3,4,5,6,7] 2 ∧
    price_change [1,2,3,4,5,6,7] 20 20 = EFloat.val 0 :=
  ⟨(C7_price_change_lookbacks [1,2,3,4,5,6,7]).2.2.1 (by decide),
   (C7_price_change_lookbacks [1,2,3,4,5,6,7]).2.2.2.2.2 (by decide)⟩

/-! ### C6 and C10: region filtering and symbol defaults -/

lemma region_ne_empty {n r : String} (hn : n.toList ≠ [])
    (h : containsSub n (lowerChars r) = true) : r.isEmpty = false := by
  by_cases he : r.isEmpty = true
  · exfalso
    have hr : r = "" := (String.isEmpty_iff r).mp he
    subst hr
    rw [lowerChars] at h
    simp only [containsSub] at h
    have : ("" : String).toList = [] := rfl
    rw [this] at h
    simp only [List.map_nil, isSubList] at h
    exact hn (List.isEmpty_iff.mp h)
  · exact Bool.not_eq_true _ ▸ (Bool.eq_false_iff.mpr he)

/-- Claim C6.  For each recognized region, when the requested symbols contain no
member of that region's fixed table, `analyze_risk_exposure`'s symbol
rewriting falls back to that region's single default (`TSM`, `AAPL`, `ASML`)
— never an empty list.  The branch order matches the code's
`asia` / `us` / `america` / `europe` checks. -/
theorem C6_region_default_fallback (symbols : List String) (region : String) :
    (containsSub "asia" (lowerChars region) = true →
      symbols.filter (inTable asia_tech_stocks) = [] →
      resolveSymbols symbols (some region) = ["TSM"]) ∧
    (containsSub "asia" (lowerChars region) = false →
      (containsSub "us" (lowerChars region) || containsSub "america" (lowerChars region)) = true →
      symbols.filter (inTable us_tech_stocks) = [] →
      resolveSymbols symbols (some region) = ["AAPL"]) ∧
    (containsSub "asia" (lowerChars region) = false →
      (containsSub "us" (lowerChars region) || containsSub "america" (lowerChars region)) = false →
      containsSub "europe" (lowerChars region) = true →
      symbols.filter (inTable europe_stocks) = [] →
      resolveSymbols symbols (some region) = ["ASML"]) := by
  refine ⟨?_, ?_, ?_⟩
  · intro h1 hf
    have hne := region_ne_empty (n := "asia") (by decide) h1
    simp [resolveSymbols, hne, h1, hf]
  · intro h1 h2 hf
    have hne : region.isEmpty = false := by
      have h2' : containsSub "us" (lowerChars region) = true ∨
          containsSub "america" (lowerChars region) = true := by simpa using h2
      rcases h2' with h | h
      · exact region_ne_empty (n := "us") (by decide) h
      · exact region_ne_empty (n := "america") (by decide) h
    simp [resolveSymbols, hne, h1, h2, hf]
  · intro h1 h2 h3 hf
    have hne := region_ne_empty (n := "europe") (by decide) h3
    simp [resolveSymbols, hne, h1, h2, h3, hf]

/-- Claim C6, witness.  `region = "Asia"`, `symbols = ["MSFT"]`: no Asia-table
member, so the default Asia symbol `TSM` is analyzed, not `MSFT`. -/
theorem C6_region_default_fallback_witness :
    resolveSymbols ["MSFT"] (some "Asia") = ["TSM"] :=
  (C6_region_default_fallback ["MSFT"] "Asia").1 (by decide) (by decide)

/-- Claim C10.  An empty symbol list is not an error for `analyze_risk_exposure`:
with no region (or an unrecognized, possibly empty one) the list is replaced
by the fixed default `["TSM"]`, and the whole analysis behaves exactly as if
called on `["TSM"]`. -/
theorem C10_empty_symbols_tsm_default (sq : ℚ → ℚ) (env : String → List ℚ) :
    (resolveSymbols [] none = ["TSM"] ∧
      analyze_risk_exposure sq env [] none = analyze_risk_exposure sq env ["TSM"] none) ∧
    (∀ r : String,
      containsSub "asia" (lowerChars r) = false →
      (containsSub "us" (lowerChars r) || containsSub "america" (lowerChars r)) = false →
      containsSub "europe" (lowerChars r) = false →
      resolveSymbols [] (some r) = ["TSM"] ∧
      analyze_risk_exposure sq env [] (some r) = analyze_risk_exposure sq env ["TSM"] (some r)) := by
  refine ⟨⟨rfl, rfl⟩, ?_⟩
  intro r h1 h2 h3
  have e1 : resolveSymbols [] (some r) = ["TSM"] := by
    by_cases hre : r.isEmpty <;> simp [resolveSymbols, hre, h1, h2, h3]
  have e2 : resolveSymbols ["TSM"] (some r) = ["TSM"] := by
    by_cases hre : r.isEmpty <;> simp [resolveSymbols, hre, h1, h2, h3]
  exact ⟨e1, by simp only [analyze_risk_exposure, e1, e2]⟩

/-- Claim C10, witness.  The unrecognized region `"Africa"` with no symbols:
the default `TSM` is substituted and analyzed. -/
theorem C10_empty_symbols_tsm_default_witness :
    resolveSymbols [] (some "Africa") = ["TSM"] ∧
    analyze_risk_exposure sq0 env3 [] (some "Africa") =
      analyze_risk_exposure sq0 env3 ["TSM"] (some "Africa") :=
  (C10_empty_symbols_tsm_default sq0 env3).2 "Africa" (by decide) (by decide) (by decide)

/-! ### C3: exclusion of failed symbols from the aggregates -/

lemma zipWith_div_no_nan : ∀ (ps qs : List ℚ), (∀ p ∈ ps, p ≠ 0) →
    ∀ x ∈ List.zipWith (fun a b => (EFloat.val (b - a)).div (EFloat.val a)) ps qs,
      x.isNan = false
  | [], _, _, x, hx => by simp at hx
  | _ :: _, [], _, x, hx => by simp at hx
  | p :: ps, q :: qs, h, x, hx => by
    rw [List.zipWith_cons_cons] at hx
    rcases List.mem_cons.mp hx with rfl | hx2
    · have hp : p ≠ 0 := h p (List.mem_cons_self _ _)
      simp [EFloat.div, hp, EFloat.isNan]
    · exact zipWith_div_no_nan ps qs (fun r hr => h r (List.mem_cons_of_mem _ hr)) x hx2

lemma dropna_pctChange_eq (ps : List ℚ) (hne : ps ≠ []) (hnz : ∀ p ∈ ps, p ≠ 0) :
    dropna (pctChange ps) =
      List.zipWith (fun a b => (EFloat.val (b - a)).div (EFloat.val a)) ps ps.tail := by
  rw [pctChange, if_neg (by simpa using hne), dropna, List.filter_cons, if_neg (by decide)]
  rw [List.filter_eq_self]
  intro x hx
  have hno := zipWith_div_no_nan ps ps.tail hnz x hx
  simp [hno]

lemma calculate_volatility_isOk (sq : ℚ → ℚ) (ps : List ℚ) (h2 : 2 ≤ ps.length)
    (hnz : ∀ p ∈ ps, p ≠ 0) :
    ∃ v, calculate_volatility sq ps 20 = Except.ok v := by
  have hne : ps ≠ [] := by
    intro h
    rw [h] at h2
    simp at h2
  have hlen : (dropna (pctChange ps)).length = ps.length - 1 := by
    rw [dropna_pctChange_eq ps hne hnz]
    simp [List.length_zipWith, List.length_tail]
  have hne2 : rollingStd sq 20 (dropna (pctChange ps)) ≠ [] := by
    intro h
    have hl := length_rollingApply (fun win => esqrt sq (windowVar 20 win)) 20
      (dropna (pctChange ps))
    rw [rollingStd] at h
    rw [h] at hl
    simp at hl
    omega
  cases hgl : (rollingStd sq 20 (dropna (pctChange ps))).getLast? with
  | none => exact absurd (List.getLast?_eq_none_iff.mp hgl) hne2
  | some v => exact ⟨_, by rw [calculate_volatility, hgl]⟩

lemma get_technical_summary_ok (sq : ℚ → ℚ) (env : String → List ℚ) (s : String)
    (h2 : 2 ≤ (env s).length) (hnz : ∀ p ∈ env s, p ≠ 0) :
    get_technical_summary sq env s = SummaryResult.ok (summaryOf sq env s) := by
  obtain ⟨v, hv⟩ := calculate_volatility_isOk sq (env s) h2 hnz
  have hne : (env s).isEmpty = false := by
    cases h : env s with
    | nil => rw [h] at h2; simp at h2
    | cons a l => rfl
  simp only [get_technical_summary, summaryOf, hne, hv, Bool.false_eq_true, if_false,
    Except.toOption, Option.getD_some]

lemma get_technical_summary_err (sq : ℚ → ℚ) (env : String → List ℚ) (s : String)
    (he : env s = []) :
    get_technical_summary sq env s = SummaryResult.err ("No data found for " ++ s) := by
  simp [get_technical_summary, he]

lemma collectSummaries_eq (sq : ℚ → ℚ) (env : String → List ℚ) (syms : List String)
    (hgood : ∀ s ∈ syms, env s = [] ∨ (2 ≤ (env s).length ∧ ∀ p ∈ env s, p ≠ 0)) :
    collectSummaries sq env syms =
      some ((syms.filter (fun s => !(env s).isEmpty)).map (summaryOf sq env)) := by
  induction syms with
  | nil => rfl
  | cons s rest ih =>
    have hrest := ih (fun t ht => hgood t (List.mem_cons_of_mem _ ht))
    rcases hgood s (List.mem_cons_self _ _) with he | ⟨h2, hnz⟩
    · simp only [collectSummaries, get_technical_summary_err sq env s he, hrest,
        List.filter_cons, he, List.isEmpty_nil, Bool.not_true, Bool.false_eq_true, if_false]
    · have hne : (env s).isEmpty = false := by
        cases h : env s with
        | nil => rw [h] at h2; simp at h2
        | cons a l => rfl
      simp only [collectSummaries, get_technical_summary_ok sq env s h2 hnz, hrest,
        List.filter_cons, hne, Bool.not_false, if_pos, List.map_cons, Option.map_some']

/-- Claim C3.  Under well-formed histories (each requested symbol either has no
data — a failed lookup — or at least two bars of nonzero closes), both batch
entry points: (a) return their batch-level error exactly when no symbol could
be analyzed, and (b) otherwise return a report whose entry list is exactly the
successfully-analyzed symbols in order, whose count fields count only those
entries, and whose averages aggregate only over those entries. -/
theorem C3_failed_symbols_excluded (sq : ℚ → ℚ) (env : String → List ℚ)
    (symbols : List String) (region : Option String)
    (hA : ∀ s ∈ resolveSymbols symbols region,
      env s = [] ∨ (2 ≤ (env s).length ∧ ∀ p ∈ env s, p ≠ 0))
    (hB : ∀ s ∈ symbols, env s = [] ∨ (2 ≤ (env s).length ∧ ∀ p ∈ env s, p ≠ 0)) :
    ((resolveSymbols symbols region).filter (fun s => !(env s).isEmpty) = [] →
      analyze_risk_exposure sq env symbols region =
        RiskResult.err "Could not analyze any stocks in the portfolio") ∧
    (∀ good, good = (resolveSymbols symbols region).filter (fun s => !(env s).isEmpty) →
      good ≠ [] →
      ∃ rep, analyze_risk_exposure sq env symbols region = RiskResult.ok rep ∧
        rep.stocks = good.map (summaryOf sq env) ∧
        rep.stocks_analyzed = good.length ∧
        rep.average_volatility =
          roundE (averageOf (good.map (fun s => (summaryOf sq env s).volatility))) ∧
        rep.average_beta =
          roundE (averageOf (good.map (fun s => (summaryOf sq env s).beta)))) ∧
    (symbols = [] →
      get_portfolio_analytics sq env symbols = PortfolioResult.err "No symbols provided") ∧
    (symbols ≠ [] → symbols.filter (fun s => !(env s).isEmpty) = [] →
      get_portfolio_analytics sq env symbols =
        PortfolioResult.err "Could not analyze any stocks") ∧
    (∀ goodB, goodB = symbols.filter (fun s => !(env s).isEmpty) → goodB ≠ [] →
      ∃ rep, get_portfolio_analytics sq env symbols = PortfolioResult.ok rep ∧
        rep.individual_analyses = goodB.map (summaryOf sq env) ∧
        rep.total_positions = goodB.length) := by
  have hcsA := collectSummaries_eq sq env _ hA
  have hcsB := collectSummaries_eq sq env _ hB
  refine ⟨?_, ?_, ?_, ?_, ?_⟩
  · intro hempty
    simp [analyze_risk_exposure, hcsA, hempty]
  · rintro good rfl hne
    have hmapne : (((resolveSymbols symbols region).filter
        (fun s => !(env s).isEmpty)).map (summaryOf sq env)).isEmpty = false := by
      rw [List.isEmpty_eq_false]
      simpa using hne
    simp only [analyze_risk_exposure, hcsA, hmapne, Bool.false_eq_true, if_false]
    refine ⟨_, rfl, rfl, by simp, ?_, ?_⟩
    · simp [averageOf, List.map_map, Function.comp_def]
    · simp [averageOf, List.map_map, Function.comp_def]
  · intro h
    subst h
    rfl
  · intro hne hempty
    have hsne : symbols.isEmpty = false := by
      rw [List.isEmpty_eq_false]
      exact hne
    simp [get_portfolio_analytics, hsne, hcsB, hempty]
  · rintro goodB rfl hne
    have hsne : symbols.isEmpty = false := by
      rw [List.isEmpty_eq_false]
      intro h
      subst h
      simp at hne
    have hmapne : ((symbols.filter (fun s => !(env s).isEmpty)).map
        (summaryOf sq env)).isEmpty = false := by
      rw [List.isEmpty_eq_false]
      simpa using hne
    simp only [get_portfolio_analytics, hsne, hcsB, hmapne, Bool.false_eq_true, if_false]
    exact ⟨_, rfl, rfl, by simp⟩

/-- Claim C3, witness.  Three requested symbols with one failed lookup
(`env3 "BAD" = []`): the report has exactly the two successful entries and
aggregates only over them. -/
theorem C3_failed_symbols_excluded_witness :
    ∃ rep, analyze_risk_exposure sq0 env3 ["AAPL", "MSFT", "BAD"] none = RiskResult.ok rep ∧
      rep.stocks = ["AAPL", "MSFT"].map (summaryOf sq0 env3) ∧
      rep.stocks_analyzed = 2 ∧
      rep.average_volatility =
        roundE (averageOf (["AAPL", "MSFT"].map (fun s => (summaryOf sq0 env3 s).volatility))) ∧
      rep.average_beta =
        roundE (averageOf (["AAPL", "MSFT"].map (fun s => (summaryOf sq0 env3 s).beta))) :=
  (C3_failed_symbols_excluded sq0 env3 ["AAPL", "MSFT", "BAD"] none
    (by decide) (by decide)).2.1 ["AAPL", "MSFT"] (by decide) (by decide)

/-! ### C9: where rounding happens -/

lemma roundE_val_one : roundE (EFloat.val 1) = EFloat.val 1 := by decide

lemma calculate_volatility_eq_round (sq : ℚ → ℚ) (ps : List ℚ) (period : ℕ) :
    calculate_volatility sq ps period = (volatility_exact sq ps period).map roundE := by
  rw [calculate_volatility, volatility_exact]
  cases (rollingStd sq period (dropna (pctChange ps))).getLast? <;> rfl

lemma calculate_beta_eq_round (stock market : List ℚ) (period : ℕ) :
    calculate_beta stock market period = roundE (beta_exact stock market period) := by
  simp only [calculate_beta, beta_exact]
  split_ifs
  · exact roundE_val_one.symm
  · exact roundE_val_one.symm
  · rfl

lemma betaOf_eq_round (env : String → List ℚ) (close : List ℚ) :
    betaOf env close = roundE (betaOf_spec env close) := by
  rw [betaOf, betaOf_spec]
  split_ifs
  · exact roundE_val_one.symm
  · exact calculate_beta_eq_round close (env "SPY") 60

lemma eraseRisk_mkSummary (sq : ℚ → ℚ) (env : String → List ℚ) (symbol : String) (v : EFloat) :
    eraseRisk (mkSummary sq env symbol (roundE v)) =
      eraseRisk (mkSummary_spec sq env symbol v) := by
  simp only [mkSummary, mkSummary_spec, eraseRisk, betaOf_eq_round]

/-- Claim C9, amended.  Rounding is not confined to the presentation boundary:
`calculate_volatility` and `calculate_beta` round internally, and the risk
level is classified from those already-rounded values.  Precisely: (a) every
field other than the risk level agrees with the round-once-at-output
computation (the volatility and beta fields themselves equal the exact values
rounded once); (b) the code's risk level is `risk_level` applied to the
*rounded* stored volatility and beta; (c) the spec-style summary's risk level
is `risk_level` applied to the *exact* volatility and beta, whose rounded
values are the stored fields.  The two classifications differ when rounding
crosses a threshold (see the counterexample). -/
theorem C9_rounding_at_boundary (sq : ℚ → ℚ) (env : String → List ℚ) (symbol : String) :
    eraseRiskR (get_technical_summary sq env symbol) =
      eraseRiskR (get_technical_summary_spec sq env symbol) ∧
    (∀ s, get_technical_summary sq env symbol = SummaryResult.ok s →
      s.risk_level = risk_level s.volatility s.beta) ∧
    (∀ s, get_technical_summary_spec sq env symbol = SummaryResult.ok s →
      ∃ v b, s.volatility = roundE v ∧ s.beta = roundE b ∧ s.risk_level = risk_level v b) := by
  refine ⟨?_, ?_, ?_⟩
  · rw [get_technical_summary, get_technical_summary_spec,
      calculate_volatility_eq_round sq (env symbol) 20]
    by_cases he : (env symbol).isEmpty
    · simp [he]
    · simp only [he, Bool.false_eq_true, if_false]
      cases hv : volatility_exact sq (env symbol) 20 with
      | error e => rfl
      | ok v => simp [Except.map, eraseRiskR, eraseRisk_mkSummary]
  · intro s hs
    rw [get_technical_summary] at hs
    by_cases he : (env symbol).isEmpty
    · simp [he] at hs
    · simp only [he, Bool.false_eq_true, if_false] at hs
      cases hv : calculate_volatility sq (env symbol) 20 with
      | error e => rw [hv] at hs; exact absurd hs (by simp)
      | ok v =>
          rw [hv] at hs
          cases hs
          rfl
  · intro s hs
    rw [get_technical_summary_spec] at hs
    by_cases he : (env symbol).isEmpty
    · simp [he] at hs
    · simp only [he, Bool.false_eq_true, if_false] at hs
      cases hv : volatility_exact sq (env symbol) 20 with
      | error e => rw [hv] at hs; exact absurd hs (by simp)
      | ok v =>
          rw [hv] at hs
          cases hs
          exact ⟨v, betaOf_spec env (env symbol), rfl, rfl, rfl⟩

/-- Claim C9, counterexample.  A 12-bar subject series whose exact beta is
`1.504` (rounding to `1.5`) and whose volatility window is not yet full:
the code classifies risk from the rounded beta (`1.5 > 1.5` fails, giving
`"Medium"`), while the round-once-at-output computation classifies from the
exact beta (`1.504 > 1.5`, giving `"High"`), so the produced summaries
differ. -/
theorem C9_rounding_at_boundary_counterexample :
    riskOfR (get_technical_summary sq0 env9 "XYZ") = some "Medium" ∧
    riskOfR (get_technical_summary_spec sq0 env9 "XYZ") = some "High" ∧
    get_technical_summary sq0 env9 "XYZ" ≠ get_technical_summary_spec sq0 env9 "XYZ" := by
  refine ⟨by decide, by decide, by decide⟩

/-- Claim C9, witness.  The code's risk level is computed from the stored
(rounded) volatility and beta, at the concrete counterexample input. -/
theorem C9_rounding_at_boundary_witness :
    (summaryOf sq0 env9 "XYZ").risk_level =
      risk_level (summaryOf sq0 env9 "XYZ").volatility (summaryOf sq0 env9 "XYZ").beta :=
  (C9_rounding_at_boundary sq0 env9 "XYZ").2.1 (summaryOf sq0 env9 "XYZ") (by decide)
